import Mathlib

/-!
Verification of the `spipe` pipeline macro (src/pipe.rs, src/utils.rs, src/lib.rs).

The development shallowly embeds the crate's code generator and parser:

* `Expr` / `Stmt` model the subset of the `syn` expression AST that the crate
  constructs or inspects (paths, calls, method calls, tuples, closures,
  references, blocks, casts, try-expressions).
* `PipeOp`, `PipeType`, `PipeOpPair`, `MacroInput` mirror the types of
  src/pipe.rs; the functions `substitute_args`, `try_get_call_ident`,
  `apply_op`, `get_apply_block`, `get_fn_closure_call`, `apply_pipe`,
  `runSteps` mirror the functions of src/utils.rs and `MacroInput::run`.
  Rust `Result<T, syn::Error>` becomes `Except String T`; the `&mut usize`
  hygiene counter becomes explicit state passing.
* A token-level parser mirrors `PipeOp::parse`, `PipeOpPair::parse` and
  `MacroInput::parse`; `syn`'s own primitive parsers (paths, expressions,
  closures, types) are external-library code and are modelled by small
  token-list parsers of the same shape.
-/

namespace Spipe

mutual

/-- Model of the `syn::Expr` subset used by the crate.  `path` carries the
leading-colon flag and the segment identifiers; `syn::Path::get_ident`
succeeds exactly on a path with no leading colon and one plain segment. -/
inductive Expr where
  | path (leadingColon : Bool) (segments : List String)
  | call (func : Expr) (args : List Expr)
  | methodCall (receiver : Expr) (method : String) (args : List Expr)
  | tuple (elems : List Expr)
  | paren (inner : Expr)
  | closureE (params : List String) (body : Expr)
  | reference (mutable : Bool) (inner : Expr)
  | block (stmts : List Stmt)
  | cast (inner : Expr) (tySegments : List String)
  | tryE (inner : Expr)
  | litInt (n : Int)

inductive Stmt where
  | localLet (mutable : Bool) (name : String) (init : Expr)
  | exprStmt (e : Expr) (semi : Bool)

end

/-- Model of `PipeOp` (src/pipe.rs).  `fnCall` and `methodCall` carry the
fields of the `ExprCall` payload (callee expression and argument list);
`closure` carries the fields of the `ExprClosure` payload. -/
inductive PipeOp where
  | noOp
  | fnCall (func : Expr) (args : List Expr)
  | methodCall (func : Expr) (args : List Expr)
  | closure (params : List String) (body : Expr)
  | typeFrom (leadingColon : Bool) (segments : List String)
  | typeTryFrom (leadingColon : Bool) (segments : List String)
  | typeAs (tySegments : List String)

/-- Model of `PipeType` (src/pipe.rs). -/
inductive PipeType where
  | Basic
  | AndThen
  | Clone
  | Map
  | Try
  | Unwrap
  | Apply
  | ApplyMut

/-- Mirrors `call_expr` (src/utils.rs). -/
def call_expr (func : Expr) (args : List Expr) : Expr :=
  Expr.call func args

/-- Mirrors `call_method_expr` (src/utils.rs). -/
def call_method_expr (receiver : Expr) (fn : String) (args : List Expr) : Expr :=
  Expr.methodCall receiver fn args

/-- Mirrors `path_to_expr` (src/utils.rs). -/
def path_to_expr (leadingColon : Bool) (segments : List String) : Expr :=
  Expr.path leadingColon segments

/-- Mirrors `add_to_path` (src/utils.rs): push one more segment. -/
def add_to_path (segments : List String) (ident : String) : List String :=
  segments ++ [ident]

/-- Mirrors `replace_empty_paren_closure` (src/utils.rs): true exactly on an
empty tuple expression, the placeholder written as an empty paren group. -/
def replace_empty_paren_closure : Expr → Bool
  | Expr.tuple elems => elems.isEmpty
  | _ => false

/-- Mirrors `substitute_args` (src/utils.rs): `iter().position(which)` is
`List.findIdx?`, the in-place `mem::replace` is `List.set`, and the
fallback is `insert(0, sub)`. -/
def substitute_args (args : List Expr) (sub : Expr) (which : Expr → Bool) : List Expr :=
  match args.findIdx? which with
  | some idx => args.set idx sub
  | none => sub :: args

/-- Mirrors `try_get_call_ident` (src/utils.rs): a path callee whose
`get_ident` succeeds yields the ident, any other path is the
span-attached error, a non-path callee is the other error. -/
def try_get_call_ident (func : Expr) : Except String String :=
  match func with
  | Expr.path false [i] => Except.ok i
  | Expr.path _ _ => Except.error ("Expected ident")
  | _ => Except.error ("not a function")

/-- Mirrors `apply_op` (src/utils.rs). -/
def apply_op : PipeOp → Expr → Except String Expr
  | PipeOp.noOp, e => Except.ok e
  | PipeOp.fnCall func args, e =>
      Except.ok (call_expr func (substitute_args args e replace_empty_paren_closure))
  | PipeOp.methodCall func args, e =>
      match try_get_call_ident func with
      | Except.ok i => Except.ok (call_method_expr e i args)
      | Except.error msg => Except.error msg
  | PipeOp.closure params body, e =>
      Except.ok (call_expr (Expr.closureE params body) [e])
  | PipeOp.typeFrom lc segs, e =>
      Except.ok (call_expr (path_to_expr lc (add_to_path segs "from")) [e])
  | PipeOp.typeTryFrom lc segs, e =>
      Except.ok (call_expr (path_to_expr lc (add_to_path segs "try_from")) [e])
  | PipeOp.typeAs tySegs, e =>
      Except.ok (Expr.cast e tySegs)

/-- The temporary name `format!("__var_{}", closure_count)` used by
`get_apply_block` (src/utils.rs). -/
def apply_var_name (closure_count : Nat) : String :=
  "__var_" ++ Nat.repr closure_count

/-- Mirrors `get_apply_block` (src/utils.rs): bind the piped expression to
the counter-named temporary (mutable on demand), apply the operation to a
reference of the temporary as a semicolon-terminated statement, and end
the block with the bare temporary. -/
def get_apply_block (op : PipeOp) (expr : Expr) (mutable : Bool) (closure_count : Nat) :
    Except String Expr :=
  let var_name := apply_var_name closure_count
  let closure_var_expr := Expr.path false [var_name]
  match apply_op op (Expr.reference mutable closure_var_expr) with
  | Except.error msg => Except.error msg
  | Except.ok applied =>
      Except.ok (Expr.block
        [Stmt.localLet mutable var_name expr,
         Stmt.exprStmt applied true,
         Stmt.exprStmt closure_var_expr false])

/-- Mirrors `get_fn_closure_call` (src/utils.rs): apply the operation to the
fixed variable `__map_var`, wrap the result in a one-parameter closure over
that variable, and call the combinator method with the closure as the sole
argument. -/
def get_fn_closure_call (pipe : PipeOp) (call_on : Expr) (method_name : String) :
    Except String Expr :=
  let closure_var_expr := Expr.path false ["__map_var"]
  match apply_op pipe closure_var_expr with
  | Except.error msg => Except.error msg
  | Except.ok applied =>
      Except.ok (call_method_expr call_on method_name [Expr.closureE ["__map_var"] applied])

/-- Mirrors `apply_pipe` (src/utils.rs).  The Rust function mutates the
hygiene counter when called and returns a closure consuming the operation;
here the returned pair carries the updated counter together with the result
of feeding the operation to that closure. -/
def apply_pipe (pipe : PipeType) (expr : Expr) (closure_count : Nat) (op : PipeOp) :
    Nat × Except String Expr :=
  match pipe with
  | PipeType.Basic => (closure_count, apply_op op expr)
  | PipeType.AndThen => (closure_count, get_fn_closure_call op expr "and_then")
  | PipeType.Clone => (closure_count, apply_op op (call_method_expr expr "clone" []))
  | PipeType.Map => (closure_count, get_fn_closure_call op expr "map")
  | PipeType.Try => (closure_count, apply_op op (Expr.tryE expr))
  | PipeType.Unwrap => (closure_count, apply_op op (call_method_expr expr "unwrap" []))
  | PipeType.Apply => (closure_count + 1, get_apply_block op expr false (closure_count + 1))
  | PipeType.ApplyMut => (closure_count + 1, get_apply_block op expr true (closure_count + 1))

/-- Model of `PipeOpPair` (src/pipe.rs). -/
structure PipeOpPair where
  pipe_type : PipeType
  operation : PipeOp

/-- Model of `MacroInput` (src/pipe.rs). -/
structure MacroInput where
  initial : Expr
  pipe_pairs : List PipeOpPair

/-- The loop body of `MacroInput::run` (src/pipe.rs): pop pairs from the
front, thread the accumulated expression and the hygiene counter, stop at
the first error. -/
def runSteps : Expr → Nat → List PipeOpPair → Except String Expr
  | res, _, [] => Except.ok res
  | res, closure_count, p :: rest =>
      match apply_pipe p.pipe_type res closure_count p.operation with
      | (cc2, Except.ok e) => runSteps e cc2 rest
      | (_, Except.error msg) => Except.error msg

/-- Mirrors `MacroInput::run` (src/pipe.rs): fold starting from the initial
expression with the counter at zero. -/
def MacroInput.run (m : MacroInput) : Except String Expr :=
  runSteps m.initial 0 m.pipe_pairs

/-- Token model of the proc-macro input stream.  A parenthesized group is one
token holding its inner stream (as in proc-macro2); the multi-character
Rust tokens that the grammar treats atomically (`::` and `=>`) are single
tokens here. -/
inductive Tok where
  | dot
  | ident (s : String)
  | litInt (n : Int)
  | parenGroup (inner : List Tok)
  | comma
  | colonColon
  | question
  | orBar
  | kwAs
  | fatArrow
  | amp
  | plus
  | atSign
  | star
  | hash
  | dollar

/-- Modelled from `syn`: the tail of a path, consuming `:: ident` pairs. -/
def parsePathSegsRest : List String → List Tok → List String × List Tok
  | acc, Tok.colonColon :: Tok.ident s :: rest => parsePathSegsRest (acc ++ [s]) rest
  | acc, toks => (acc, toks)

/-- Modelled from `syn`: `Path::parse`, an optional leading `::` then a
non-empty `::`-separated identifier sequence. -/
def parsePath (toks : List Tok) : Except String ((Bool × List String) × List Tok) :=
  match toks with
  | Tok.colonColon :: Tok.ident s :: rest =>
      let (segs, r) := parsePathSegsRest [s] rest
      Except.ok ((true, segs), r)
  | Tok.ident s :: rest =>
      let (segs, r) := parsePathSegsRest [s] rest
      Except.ok ((false, segs), r)
  | _ => Except.error ("expected path")

mutual

/-- Modelled from `syn`: `Expr::parse` restricted to the shapes the pipeline
grammar feeds it — paths, integer literals, and paren groups (an empty
group is the empty tuple, i.e. the placeholder; a one-element group is a
parenthesized expression; otherwise a tuple).  The fuel bounds nesting. -/
def parseExprF : Nat → List Tok → Except String (Expr × List Tok)
  | 0, _ => Except.error ("recursion limit")
  | _ + 1, Tok.ident s :: rest =>
      let (segs, r) := parsePathSegsRest [s] rest
      Except.ok (Expr.path false segs, r)
  | _ + 1, Tok.colonColon :: Tok.ident s :: rest =>
      let (segs, r) := parsePathSegsRest [s] rest
      Except.ok (Expr.path true segs, r)
  | _ + 1, Tok.litInt n :: rest => Except.ok (Expr.litInt n, rest)
  | fuel + 1, Tok.parenGroup inner :: rest =>
      match parseCommaSepF fuel inner with
      | Except.ok [e] => Except.ok (Expr.paren e, rest)
      | Except.ok es => Except.ok (Expr.tuple es, rest)
      | Except.error msg => Except.error msg
  | _ + 1, _ => Except.error ("unsupported expression")

/-- Modelled from `syn`: `Punctuated::<Expr, Comma>::parse_terminated`, a
possibly empty comma-separated expression list consuming the whole
stream. -/
def parseCommaSepF : Nat → List Tok → Except String (List Expr)
  | 0, _ => Except.error ("recursion limit")
  | _ + 1, [] => Except.ok []
  | fuel + 1, toks =>
      match parseExprF fuel toks with
      | Except.error msg => Except.error msg
      | Except.ok (e, rest) =>
          match rest with
          | [] => Except.ok [e]
          | Tok.comma :: rest2 =>
              match parseCommaSepF fuel rest2 with
              | Except.ok es => Except.ok (e :: es)
              | Except.error msg => Except.error msg
          | _ => Except.error ("expected comma")

end

/-- Mirrors `parse_reduced_fn` (src/utils.rs): a path, then an optional
parenthesized comma-separated argument list (empty when absent); returns
the fields of the produced `ExprCall`. -/
def parse_reduced_fn (fuel : Nat) (toks : List Tok) :
    Except String ((Expr × List Expr) × List Tok) :=
  match parsePath toks with
  | Except.error msg => Except.error msg
  | Except.ok ((lc, segs), rest) =>
      match rest with
      | Tok.parenGroup inner :: rest2 =>
          match parseCommaSepF fuel inner with
          | Except.ok args => Except.ok ((Expr.path lc segs, args), rest2)
          | Except.error msg => Except.error msg
      | _ => Except.ok ((Expr.path lc segs, []), rest)

/-- Modelled from `syn`: `Type::parse` restricted to path types, which is
what the conversion operations hold. -/
def parseType (toks : List Tok) : Except String (List String × List Tok) :=
  match parsePath toks with
  | Except.ok ((_, segs), rest) => Except.ok (segs, rest)
  | Except.error msg => Except.error msg

/-- Modelled from `syn`: `ExprClosure::parse` restricted to a one-parameter
closure literal as in the pipeline grammar. -/
def parseClosure (fuel : Nat) (toks : List Tok) :
    Except String ((List String × Expr) × List Tok) :=
  match toks with
  | Tok.orBar :: Tok.ident p :: Tok.orBar :: rest =>
      match parseExprF fuel rest with
      | Except.ok (body, rest2) => Except.ok (([p], body), rest2)
      | Except.error msg => Except.error msg
  | _ => Except.error ("expected closure")

/-- Mirrors `PipeOp::parse` (src/pipe.rs): three dots are `NoOp` (checked
first), a single dot starts a method call, a paren group is dispatched on
its first inner token (`as` cast, identifier type path with optional `?`,
otherwise an error), an identifier starts a function call, `|` starts a
closure, anything else is an error.  Leftover tokens inside a group are the
deferred unexpected-token error of `syn`, reported here in place. -/
def PipeOp.parse (fuel : Nat) (toks : List Tok) : Except String (PipeOp × List Tok) :=
  match toks with
  | Tok.dot :: Tok.dot :: Tok.dot :: rest => Except.ok (PipeOp.noOp, rest)
  | Tok.dot :: rest =>
      match parse_reduced_fn fuel rest with
      | Except.ok ((func, args), rest2) => Except.ok (PipeOp.methodCall func args, rest2)
      | Except.error msg => Except.error msg
  | Tok.parenGroup inner :: rest =>
      match inner with
      | Tok.kwAs :: tyToks =>
          match parseType tyToks with
          | Except.ok (ty, []) => Except.ok (PipeOp.typeAs ty, rest)
          | Except.ok (_, _ :: _) => Except.error ("unexpected token")
          | Except.error msg => Except.error msg
      | Tok.ident _ :: _ =>
          match parsePath inner with
          | Except.ok ((lc, segs), innerRest) =>
              match innerRest with
              | [Tok.question] => Except.ok (PipeOp.typeTryFrom lc segs, rest)
              | [] => Except.ok (PipeOp.typeFrom lc segs, rest)
              | _ => Except.error ("unexpected token")
          | Except.error msg => Except.error msg
      | _ => Except.error ("expected as or identifier")
  | Tok.ident _ :: _ =>
      match parse_reduced_fn fuel toks with
      | Except.ok ((func, args), rest2) => Except.ok (PipeOp.fnCall func args, rest2)
      | Except.error msg => Except.error msg
  | Tok.orBar :: _ =>
      match parseClosure fuel toks with
      | Except.ok ((params, body), rest2) => Except.ok (PipeOp.closure params body, rest2)
      | Except.error msg => Except.error msg
  | _ => Except.error ("expected operation")

/-- Mirrors `PipeOpPair::parse` (src/pipe.rs): one of the seven marker
tokens selects the step kind, no marker means `Basic`; then the operation
is parsed. -/
def parsePipeOpPair (fuel : Nat) (toks : List Tok) : Except String (PipeOpPair × List Tok) :=
  let (ty, rest) :=
    match toks with
    | Tok.amp :: r => (PipeType.AndThen, r)
    | Tok.question :: r => (PipeType.Try, r)
    | Tok.plus :: r => (PipeType.Clone, r)
    | Tok.star :: r => (PipeType.Unwrap, r)
    | Tok.atSign :: r => (PipeType.Map, r)
    | Tok.hash :: r => (PipeType.Apply, r)
    | Tok.dollar :: r => (PipeType.ApplyMut, r)
    | r => (PipeType.Basic, r)
  match PipeOp.parse fuel rest with
  | Except.ok (op, rest2) => Except.ok (⟨ty, op⟩, rest2)
  | Except.error msg => Except.error msg

/-- Modelled from `syn`: `Punctuated::parse_separated_nonempty` over
`PipeOpPair` with separator `=>` — at least one pair, a separator must be
followed by another pair. -/
def parsePairsF : Nat → List Tok → Except String (List PipeOpPair × List Tok)
  | 0, _ => Except.error ("recursion limit")
  | fuel + 1, toks =>
      match parsePipeOpPair fuel toks with
      | Except.error msg => Except.error msg
      | Except.ok (p, rest) =>
          match rest with
          | Tok.fatArrow :: rest2 =>
              match parsePairsF fuel rest2 with
              | Except.ok (ps, rest3) => Except.ok (p :: ps, rest3)
              | Except.error msg => Except.error msg
          | _ => Except.ok ([p], rest)

/-- Mirrors `MacroInput::parse` (src/pipe.rs): the initial expression, then
a non-empty `=>`-separated pair sequence exactly when a `=>` follows. -/
def parseMacroInput (fuel : Nat) (toks : List Tok) : Except String (MacroInput × List Tok) :=
  match parseExprF fuel toks with
  | Except.error msg => Except.error msg
  | Except.ok (initial, rest) =>
      match rest with
      | Tok.fatArrow :: rest2 =>
          match parsePairsF fuel rest2 with
          | Except.ok (ps, rest3) => Except.ok (⟨initial, ps⟩, rest3)
          | Except.error msg => Except.error msg
      | _ => Except.ok (⟨initial, []⟩, rest)

mutual

/-- Size of one token, counting the tokens inside a group. -/
def tokSize : Tok → Nat
  | Tok.parenGroup inner => 1 + tokListSize inner
  | _ => 1

/-- Total size of a token stream. -/
def tokListSize : List Tok → Nat
  | [] => 0
  | t :: ts => tokSize t + tokListSize ts

end

/-- Mirrors the `spipe` entry point (src/lib.rs): `parse_macro_input!`
requires the whole stream to be consumed, then `MacroInput::run` folds the
pipeline.  The fuel is ample for the token stream's size. -/
def compile (toks : List Tok) : Except String Expr :=
  match parseMacroInput (tokListSize toks + 1) toks with
  | Except.error msg => Except.error msg
  | Except.ok (m, []) => m.run
  | Except.ok (_, _ :: _) => Except.error ("unexpected token")

/-- Unfolding equation of the core numeral printer. -/
lemma toDigitsCore_succ (b fuel n : Nat) (ds : List Char) :
    Nat.toDigitsCore b (fuel + 1) n ds =
      (if n / b = 0 then Nat.digitChar (n % b) :: ds
       else Nat.toDigitsCore b fuel (n / b) (Nat.digitChar (n % b) :: ds)) := by
  simp [Nat.toDigitsCore]

/-- With enough fuel, the core numeral printer prints the base-10 digits,
most significant first, in front of the accumulator. -/
lemma toDigitsCore_eq_digits (fuel : Nat) :
    ∀ (n : Nat) (ds : List Char), 0 < n → n < fuel →
    Nat.toDigitsCore 10 fuel n ds = ((Nat.digits 10 n).map Nat.digitChar).reverse ++ ds := by
  induction fuel with
  | zero => intro n ds _ h; omega
  | succ fuel ih =>
    intro n ds hn h
    rw [toDigitsCore_succ]
    by_cases hdiv : n / 10 = 0
    · have hnil : Nat.digits 10 (n / 10) = [] := by rw [hdiv]; simp
      rw [Nat.digits_def' (by norm_num) hn]
      simp [hdiv, hnil]
    · have h1 : 0 < n / 10 := Nat.pos_of_ne_zero hdiv
      have h2 : n / 10 < fuel :=
        lt_of_lt_of_le (Nat.div_lt_self hn (by norm_num)) (Nat.lt_succ_iff.mp h)
      rw [if_neg hdiv, ih (n / 10) (Nat.digitChar (n % 10) :: ds) h1 h2,
        Nat.digits_def' (by norm_num) hn]
      simp

/-- For a positive number, `Nat.repr` is the reversed digit-character list. -/
lemma repr_eq_digits (n : Nat) (hn : 0 < n) :
    Nat.repr n = (((Nat.digits 10 n).map Nat.digitChar).reverse).asString := by
  show (Nat.toDigits 10 n).asString = _
  rw [Nat.toDigits, toDigitsCore_eq_digits (n + 1) n [] hn (Nat.lt_succ_self n),
    List.append_nil]

/-- The digit characters of distinct digits below ten are distinct. -/
lemma digitChar_inj : ∀ a, a < 10 → ∀ b, b < 10 → Nat.digitChar a = Nat.digitChar b → a = b := by
  decide

/-- Mapping `Nat.digitChar` over lists of digits below ten is injective. -/
lemma map_digitChar_inj :
    ∀ (l1 l2 : List Nat), (∀ d ∈ l1, d < 10) → (∀ d ∈ l2, d < 10) →
      l1.map Nat.digitChar = l2.map Nat.digitChar → l1 = l2 := by
  intro l1
  induction l1 with
  | nil => intro l2 _ _ h; cases l2 <;> simp_all
  | cons a l1 ih =>
    intro l2 h1 h2 h
    cases l2 with
    | nil => simp_all
    | cons b l2 =>
      simp only [List.map_cons, List.cons.injEq] at h
      have hab : a = b :=
        digitChar_inj a (h1 a (by simp)) b (h2 b (by simp)) h.1
      have htl : l1 = l2 :=
        ih l2 (fun d hd => h1 d (by simp [hd])) (fun d hd => h2 d (by simp [hd])) h.2
      rw [hab, htl]

/-- `List.asString` is injective. -/
lemma asString_inj (l1 l2 : List Char) (h : l1.asString = l2.asString) : l1 = l2 := by
  simpa [List.asString, String.ext_iff] using h

/-- A number whose digit list is `[0]` is zero. -/
lemma eq_zero_of_digits_eq_zero_cons (n : Nat) (h : Nat.digits 10 n = [0]) : n = 0 := by
  have := Nat.ofDigits_digits 10 n
  rw [h] at this
  simpa [Nat.ofDigits] using this.symm

/-- The decimal rendering of naturals is injective. -/
lemma nat_repr_injective : Function.Injective Nat.repr := by
  intro m n h
  rcases Nat.eq_zero_or_pos m with hm | hm
  · rcases Nat.eq_zero_or_pos n with hn | hn
    · rw [hm, hn]
    · exfalso
      rw [hm, repr_eq_digits n hn] at h
      have hchars : (['0'] : List Char) = ((Nat.digits 10 n).map Nat.digitChar).reverse :=
        asString_inj _ _ h
      have hmap : (Nat.digits 10 n).map Nat.digitChar = ['0'] := by
        rw [← List.reverse_inj]
        simpa using hchars.symm
      rcases hd : Nat.digits 10 n with _ | ⟨d, tl⟩
      · rw [hd] at hmap; simp at hmap
      · rw [hd] at hmap
        rcases tl with _ | ⟨d2, tl2⟩
        · simp only [List.map_cons, List.map_nil, List.cons.injEq, and_true] at hmap
          have hd10 : d < 10 :=
            Nat.digits_lt_base (by norm_num) (by rw [hd]; simp)
          have : d = 0 := digitChar_inj d hd10 0 (by norm_num) hmap
          exact absurd (eq_zero_of_digits_eq_zero_cons n (by rw [hd, this])) (by omega)
        · simp at hmap
  · rcases Nat.eq_zero_or_pos n with hn | hn
    · exfalso
      rw [hn, repr_eq_digits m hm] at h
      have hchars : (['0'] : List Char) = ((Nat.digits 10 m).map Nat.digitChar).reverse :=
        asString_inj _ _ h.symm
      have hmap : (Nat.digits 10 m).map Nat.digitChar = ['0'] := by
        rw [← List.reverse_inj]
        simpa using hchars.symm
      rcases hd : Nat.digits 10 m with _ | ⟨d, tl⟩
      · rw [hd] at hmap; simp at hmap
      · rw [hd] at hmap
        rcases tl with _ | ⟨d2, tl2⟩
        · simp only [List.map_cons, List.map_nil, List.cons.injEq, and_true] at hmap
          have hd10 : d < 10 :=
            Nat.digits_lt_base (by norm_num) (by rw [hd]; simp)
          have : d = 0 := digitChar_inj d hd10 0 (by norm_num) hmap
          exact absurd (eq_zero_of_digits_eq_zero_cons m (by rw [hd, this])) (by omega)
        · simp at hmap
    · rw [repr_eq_digits m hm, repr_eq_digits n hn] at h
      have hchars := asString_inj _ _ h
      rw [List.reverse_inj] at hchars
      have hdig : Nat.digits 10 m = Nat.digits 10 n :=
        map_digitChar_inj _ _
          (fun d hd => Nat.digits_lt_base (by norm_num) hd)
          (fun d hd => Nat.digits_lt_base (by norm_num) hd) hchars
      have := congrArg (Nat.ofDigits 10) hdig
      rwa [Nat.ofDigits_digits, Nat.ofDigits_digits] at this

/-- Distinct counter values give distinct generated temporary names. -/
lemma apply_var_name_injective : Function.Injective apply_var_name := by
  intro m n h
  unfold apply_var_name at h
  have hdata := congrArg String.data h
  rw [String.data_append, String.data_append] at hdata
  exact nat_repr_injective (String.ext (List.append_cancel_left hdata))

/-- The first index satisfying the predicate, for a list split around a
first satisfying element. -/
lemma findIdx_first_sat (p : Expr → Bool) (x0 : Expr) (hx : p x0 = true) :
    ∀ (pre post : List Expr), (∀ a ∈ pre, p a = false) →
    List.findIdx? p (pre ++ x0 :: post) = some pre.length := by
  intro pre
  induction pre with
  | nil => intro post _; simp [List.findIdx?_cons, hx]
  | cons a pre ih =>
    intro post h
    have ha : p a = false := h a (by simp)
    simp [List.findIdx?_cons, ha, List.findIdx?_succ,
      ih post (fun b hb => h b (by simp [hb]))]

/-- Setting at the split point replaces the split element. -/
lemma set_at_split (x b : Expr) :
    ∀ (pre post : List Expr), (pre ++ b :: post).set pre.length x = pre ++ x :: post := by
  intro pre
  induction pre with
  | nil => intro post; simp
  | cons a pre ih => intro post; simp [ih]

/-- C1: a Call operation scans the argument list left to right for the
first empty-tuple placeholder; if one is present it is replaced in place,
all other arguments keeping their position and count, and otherwise the
accumulated expression is inserted as a new first argument. -/
theorem C1_call_placeholder_substitution :
    (∀ (f x : Expr) (pre post : List Expr),
        (∀ a ∈ pre, replace_empty_paren_closure a = false) →
        apply_op (PipeOp.fnCall f (pre ++ Expr.tuple [] :: post)) x =
          Except.ok (Expr.call f (pre ++ x :: post))) ∧
    (∀ (f x : Expr) (args : List Expr),
        (∀ a ∈ args, replace_empty_paren_closure a = false) →
        apply_op (PipeOp.fnCall f args) x = Except.ok (Expr.call f (x :: args))) := by
  constructor
  · intro f x pre post h
    have hfind := findIdx_first_sat replace_empty_paren_closure (Expr.tuple []) rfl pre post h
    simp only [apply_op, call_expr, substitute_args, hfind, set_at_split]
  · intro f x args h
    simp only [apply_op, call_expr, substitute_args, List.findIdx?_eq_none_iff.mpr h]

/-- Witness for C1: the accumulated `x` replaces the placeholder between
`a` and `b`. -/
theorem C1_witness :
    apply_op (PipeOp.fnCall (Expr.path false ["f"])
        [Expr.path false ["a"], Expr.tuple [], Expr.path false ["b"]])
      (Expr.path false ["x"]) =
    Except.ok (Expr.call (Expr.path false ["f"])
        [Expr.path false ["a"], Expr.path false ["x"], Expr.path false ["b"]]) :=
  C1_call_placeholder_substitution.1 (Expr.path false ["f"]) (Expr.path false ["x"])
    [Expr.path false ["a"]] [Expr.path false ["b"]]
    (by intro a ha; simp only [List.mem_singleton] at ha; rw [ha]; rfl)

/-- C2: an Apply (mutable: ApplyMut) step generates a block binding the
accumulated expression to the counter-named temporary (mutably for
ApplyMut), applying the operation to a shared (mutable) reference of that
temporary as a discarded statement, and yielding the temporary itself as
the block value, whatever the operation's own result expression is. -/
theorem C2_apply_block_shape (op : PipeOp) (acc : Expr) (cc : Nat) (b : Bool) (applied : Expr)
    (h : apply_op op (Expr.reference b (Expr.path false [apply_var_name (cc + 1)])) =
      Except.ok applied) :
    (apply_pipe (if b then PipeType.ApplyMut else PipeType.Apply) acc cc op).2 =
      Except.ok (Expr.block
        [Stmt.localLet b (apply_var_name (cc + 1)) acc,
         Stmt.exprStmt applied true,
         Stmt.exprStmt (Expr.path false [apply_var_name (cc + 1)]) false]) := by
  cases b <;> simp [apply_pipe, get_apply_block, h]

/-- Witness for C2: an Apply step with a no-op operation on the literal 4. -/
theorem C2_witness :
    (apply_pipe PipeType.Apply (Expr.litInt 4) 0 PipeOp.noOp).2 =
      Except.ok (Expr.block
        [Stmt.localLet false (apply_var_name 1) (Expr.litInt 4),
         Stmt.exprStmt (Expr.reference false (Expr.path false [apply_var_name 1])) true,
         Stmt.exprStmt (Expr.path false [apply_var_name 1]) false]) :=
  C2_apply_block_shape PipeOp.noOp (Expr.litInt 4) 0 false _ rfl

/-- C3: the hygiene counter advances by one exactly on Apply/ApplyMut
steps, unconditionally (so independent of generation success), the step is
generated from the already-incremented value (whose temporary name is
`apply_var_name (cc + 1)`), the counter never decreases, and distinct
counter values give distinct temporary names — so any two apply-steps of
one pipeline bind distinct temporaries. -/
theorem C3_hygiene_counter :
    (∀ (pipe : PipeType) (acc : Expr) (cc : Nat) (op : PipeOp),
        (apply_pipe pipe acc cc op).1 =
          match pipe with
          | PipeType.Apply => cc + 1
          | PipeType.ApplyMut => cc + 1
          | _ => cc) ∧
    (∀ (acc : Expr) (cc : Nat) (op : PipeOp) (b : Bool),
        (apply_pipe (if b then PipeType.ApplyMut else PipeType.Apply) acc cc op).2 =
          get_apply_block op acc b (cc + 1)) ∧
    (∀ (pipe : PipeType) (acc : Expr) (cc : Nat) (op : PipeOp),
        cc ≤ (apply_pipe pipe acc cc op).1) ∧
    (∀ m n : Nat, m ≠ n → apply_var_name m ≠ apply_var_name n) := by
  refine ⟨?_, ?_, ?_, ?_⟩
  · intro pipe acc cc op; cases pipe <;> rfl
  · intro acc cc op b; cases b <;> rfl
  · intro pipe acc cc op; cases pipe <;> simp [apply_pipe]
  · intro m n hmn h; exact hmn (apply_var_name_injective h)

/-- Witness for C3: one Apply step advances the counter from 0 to 1, and
the names for counters 1 and 2 differ. -/
theorem C3_witness :
    (apply_pipe PipeType.Apply (Expr.litInt 4) 0 PipeOp.noOp).1 = 1 ∧
    apply_var_name 1 ≠ apply_var_name 2 :=
  ⟨C3_hygiene_counter.1 PipeType.Apply (Expr.litInt 4) 0 PipeOp.noOp,
   C3_hygiene_counter.2.2.2 1 2 (by decide)⟩

/-- C4: an AndThen (respectively Map) step generates a method call of
and_then (respectively map) on the accumulated expression whose single
argument is a one-parameter closure whose body is the operation applied to
the closure parameter; the operation is never applied to the accumulated
expression directly. -/
theorem C4_combinator_closure (op : PipeOp) (acc : Expr) (cc : Nat) (b : Bool) (applied : Expr)
    (h : apply_op op (Expr.path false ["__map_var"]) = Except.ok applied) :
    (apply_pipe (if b then PipeType.AndThen else PipeType.Map) acc cc op).2 =
      Except.ok (Expr.methodCall acc (if b then "and_then" else "map")
        [Expr.closureE ["__map_var"] applied]) := by
  cases b <;> simp [apply_pipe, get_fn_closure_call, call_method_expr, h]

/-- Witness for C4: an AndThen step with a no-op operation. -/
theorem C4_witness :
    (apply_pipe PipeType.AndThen (Expr.litInt 1) 0 PipeOp.noOp).2 =
      Except.ok (Expr.methodCall (Expr.litInt 1) "and_then"
        [Expr.closureE ["__map_var"] (Expr.path false ["__map_var"])]) :=
  C4_combinator_closure PipeOp.noOp (Expr.litInt 1) 0 true _ rfl

/-- C5: a pipeline with zero steps — nothing following the initial
expression — compiles successfully to the initial expression unchanged,
and the driver on an empty step list is the identity. -/
theorem C5_zero_steps_identity (toks : List Tok) (e : Expr)
    (h : parseExprF (tokListSize toks + 1) toks = Except.ok (e, [])) :
    compile toks = Except.ok e ∧ MacroInput.run ⟨e, []⟩ = Except.ok e := by
  refine ⟨?_, rfl⟩
  simp [compile, parseMacroInput, h, MacroInput.run, runSteps]

/-- Witness for C5: the one-token pipeline `x`. -/
theorem C5_witness :
    compile [Tok.ident "x"] = Except.ok (Expr.path false ["x"]) ∧
    MacroInput.run ⟨Expr.path false ["x"], []⟩ = Except.ok (Expr.path false ["x"]) :=
  C5_zero_steps_identity [Tok.ident "x"] (Expr.path false ["x"]) rfl

/-- C6: dispatch order of the operation parser: three consecutive dots give
NoOp (decided before the single-dot branch), a single dot parses a
MethodCall (with the sub-parser's error propagated), a paren group is
dispatched on its first inner token — keyword as gives an as-cast, an
identifier gives a type path yielding ConvertTryFrom exactly when a
question mark follows and ConvertFrom otherwise, anything else errors — a
bare identifier parses a Call, a vertical bar parses a Closure, and any
other leading token is a syntax error. -/
theorem C6_operation_dispatch :
    (∀ (fuel : Nat) (rest : List Tok),
        PipeOp.parse fuel (Tok.dot :: Tok.dot :: Tok.dot :: rest) =
          Except.ok (PipeOp.noOp, rest)) ∧
    (∀ (fuel : Nat) (rest rest2 : List Tok) (func : Expr) (args : List Expr),
        parse_reduced_fn fuel rest = Except.ok ((func, args), rest2) →
        PipeOp.parse fuel (Tok.dot :: rest) =
          Except.ok (PipeOp.methodCall func args, rest2)) ∧
    (∀ (fuel : Nat) (rest : List Tok) (msg : String),
        (∀ r : List Tok, rest ≠ Tok.dot :: Tok.dot :: r) →
        parse_reduced_fn fuel rest = Except.error msg →
        PipeOp.parse fuel (Tok.dot :: rest) = Except.error msg) ∧
    (∀ (fuel : Nat) (rest tyToks : List Tok) (segs : List String),
        parseType tyToks = Except.ok (segs, []) →
        PipeOp.parse fuel (Tok.parenGroup (Tok.kwAs :: tyToks) :: rest) =
          Except.ok (PipeOp.typeAs segs, rest)) ∧
    (∀ (fuel : Nat) (rest inner : List Tok) (t : String) (lc : Bool) (segs : List String),
        parsePath (Tok.ident t :: inner) = Except.ok ((lc, segs), []) →
        PipeOp.parse fuel (Tok.parenGroup (Tok.ident t :: inner) :: rest) =
          Except.ok (PipeOp.typeFrom lc segs, rest)) ∧
    (∀ (fuel : Nat) (rest inner : List Tok) (t : String) (lc : Bool) (segs : List String),
        parsePath (Tok.ident t :: inner) = Except.ok ((lc, segs), [Tok.question]) →
        PipeOp.parse fuel (Tok.parenGroup (Tok.ident t :: inner) :: rest) =
          Except.ok (PipeOp.typeTryFrom lc segs, rest)) ∧
    (∀ (fuel : Nat) (rest inner : List Tok) (tk : Tok),
        (∀ s : String, tk ≠ Tok.ident s) → tk ≠ Tok.kwAs →
        ∃ msg, PipeOp.parse fuel (Tok.parenGroup (tk :: inner) :: rest) =
          Except.error msg) ∧
    (∀ (fuel : Nat) (s : String) (rest rest2 : List Tok) (func : Expr) (args : List Expr),
        parse_reduced_fn fuel (Tok.ident s :: rest) = Except.ok ((func, args), rest2) →
        PipeOp.parse fuel (Tok.ident s :: rest) =
          Except.ok (PipeOp.fnCall func args, rest2)) ∧
    (∀ (fuel : Nat) (rest rest2 : List Tok) (params : List String) (body : Expr),
        parseClosure fuel (Tok.orBar :: rest) = Except.ok ((params, body), rest2) →
        PipeOp.parse fuel (Tok.orBar :: rest) =
          Except.ok (PipeOp.closure params body, rest2)) ∧
    (∀ (fuel : Nat) (tk : Tok) (rest : List Tok),
        tk ≠ Tok.dot → (∀ s, tk ≠ Tok.ident s) →
        (∀ g, tk ≠ Tok.parenGroup g) → tk ≠ Tok.orBar →
        ∃ msg, PipeOp.parse fuel (tk :: rest) = Except.error msg) := by
  refine ⟨?_, ?_, ?_, ?_, ?_, ?_, ?_, ?_, ?_, ?_⟩
  · intro fuel rest; rfl
  · intro fuel rest rest2 func args h2
    rcases rest with _ | ⟨t1, rest1⟩
    · simp [PipeOp.parse, h2]
    · rcases rest1 with _ | ⟨t2, rest2x⟩
      · cases t1 <;> simp [PipeOp.parse, h2]
      · cases t1 <;> cases t2 <;> first
          | (simp [PipeOp.parse, h2]; done)
          | (exfalso; simp [parse_reduced_fn, parsePath] at h2)
  · intro fuel rest msg h h2
    rcases rest with _ | ⟨t1, rest1⟩
    · simp [PipeOp.parse, h2]
    · rcases rest1 with _ | ⟨t2, rest2x⟩
      · cases t1 <;> simp [PipeOp.parse, h2]
      · cases t1 <;> cases t2 <;> first
          | exact absurd rfl (h rest2x)
          | simp [PipeOp.parse, h2]
  · intro fuel rest tyToks segs h
    simp [PipeOp.parse, h]
  · intro fuel rest inner t lc segs h
    simp [PipeOp.parse, h]
  · intro fuel rest inner t lc segs h
    simp [PipeOp.parse, h]
  · intro fuel rest inner tk h1 h2
    cases tk
    case ident s => exact absurd rfl (h1 s)
    case kwAs => exact absurd rfl h2
    all_goals exact ⟨("expected as or identifier"), rfl⟩
  · intro fuel s rest rest2 func args h2
    simp [PipeOp.parse, h2]
  · intro fuel rest rest2 params body h2
    simp [PipeOp.parse, h2]
  · intro fuel tk rest h1 h2 h3 h4
    cases tk
    case dot => exact absurd rfl h1
    case ident s => exact absurd rfl (h2 s)
    case parenGroup g => exact absurd rfl (h3 g)
    case orBar => exact absurd rfl h4
    all_goals exact ⟨("expected operation"), rfl⟩

/-- Witness for C6: the paren group holding keyword as and a type parses as
an as-cast operation. -/
theorem C6_witness :
    PipeOp.parse 5 [Tok.parenGroup [Tok.kwAs, Tok.ident "f64"]] =
      Except.ok (PipeOp.typeAs ["f64"], []) :=
  C6_operation_dispatch.2.2.2.1 5 [] [Tok.ident "f64"] ["f64"] rfl

/-- C7: applying a MethodCall fails exactly when the recorded callee is not
a plain single-segment path; on a plain identifier it yields a method call
with the accumulated expression as receiver and the parsed argument list
unchanged. -/
theorem C7_method_call_ident (func acc : Expr) (args : List Expr) :
    (∀ s, func = Expr.path false [s] →
        apply_op (PipeOp.methodCall func args) acc =
          Except.ok (Expr.methodCall acc s args)) ∧
    ((∀ s, func ≠ Expr.path false [s]) →
        ∃ msg, apply_op (PipeOp.methodCall func args) acc = Except.error msg) := by
  constructor
  · rintro s rfl; rfl
  · intro h
    cases func
    case path lc segs =>
      cases lc
      · cases segs with
        | nil => exact ⟨("Expected ident"), rfl⟩
        | cons s tl =>
          cases tl with
          | nil => exact absurd rfl (h s)
          | cons s2 tl2 => exact ⟨("Expected ident"), rfl⟩
      · exact ⟨("Expected ident"), rfl⟩
    all_goals exact ⟨("not a function"), rfl⟩

/-- Witness for C7: a plain method name applied to a receiver. -/
theorem C7_witness :
    apply_op (PipeOp.methodCall (Expr.path false ["push"]) [Expr.litInt 1])
      (Expr.path false ["v"]) =
    Except.ok (Expr.methodCall (Expr.path false ["v"]) "push" [Expr.litInt 1]) :=
  (C7_method_call_ident (Expr.path false ["push"]) (Expr.path false ["v"])
    [Expr.litInt 1]).1 "push" rfl

/-- C8: the driver folds the steps strictly left to right from the initial
expression, replacing the accumulator with each generated expression, and
the first failing step aborts the fold with its error, the remaining steps
unprocessed. -/
theorem C8_driver_fold :
    (∀ (acc : Expr) (cc : Nat), runSteps acc cc [] = Except.ok acc) ∧
    (∀ (acc : Expr) (cc : Nat) (p : PipeOpPair) (rest : List PipeOpPair) (e : Expr),
        (apply_pipe p.pipe_type acc cc p.operation).2 = Except.ok e →
        runSteps acc cc (p :: rest) =
          runSteps e (apply_pipe p.pipe_type acc cc p.operation).1 rest) ∧
    (∀ (acc : Expr) (cc : Nat) (p : PipeOpPair) (rest : List PipeOpPair) (msg : String),
        (apply_pipe p.pipe_type acc cc p.operation).2 = Except.error msg →
        runSteps acc cc (p :: rest) = Except.error msg) ∧
    (∀ m : MacroInput, MacroInput.run m = runSteps m.initial 0 m.pipe_pairs) := by
  refine ⟨?_, ?_, ?_, ?_⟩
  · intro acc cc; rfl
  · intro acc cc p rest e h
    rcases he : apply_pipe p.pipe_type acc cc p.operation with ⟨cc2, r⟩
    rw [he] at h
    have h2 : r = Except.ok e := h
    subst h2
    simp [runSteps, he]
  · intro acc cc p rest msg h
    rcases he : apply_pipe p.pipe_type acc cc p.operation with ⟨cc2, r⟩
    rw [he] at h
    have h2 : r = Except.error msg := h
    subst h2
    simp [runSteps, he]
  · intro m; rfl

/-- Witness for C8: a failing first step aborts the fold before the second
step. -/
theorem C8_witness :
    runSteps (Expr.litInt 1) 0
      [⟨PipeType.Basic, PipeOp.methodCall (Expr.tuple []) []⟩,
       ⟨PipeType.Basic, PipeOp.noOp⟩] =
      Except.error ("not a function") :=
  C8_driver_fold.2.2.1 (Expr.litInt 1) 0
    ⟨PipeType.Basic, PipeOp.methodCall (Expr.tuple []) []⟩
    [⟨PipeType.Basic, PipeOp.noOp⟩] "not a function" rfl

/-- C9: AndThen/Map steps use the fixed closure parameter name __map_var;
the hygiene counter is neither incremented nor read by them, so every such
step in one pipeline reuses the same parameter name. -/
theorem C9_map_var_fixed (op : PipeOp) (acc : Expr) (cc cc2 : Nat) (b : Bool) :
    (apply_pipe (if b then PipeType.AndThen else PipeType.Map) acc cc op).1 = cc ∧
    (apply_pipe (if b then PipeType.AndThen else PipeType.Map) acc cc op).2 =
      (apply_pipe (if b then PipeType.AndThen else PipeType.Map) acc cc2 op).2 ∧
    (∀ applied, apply_op op (Expr.path false ["__map_var"]) = Except.ok applied →
        (apply_pipe (if b then PipeType.AndThen else PipeType.Map) acc cc op).2 =
          Except.ok (Expr.methodCall acc (if b then "and_then" else "map")
            [Expr.closureE ["__map_var"] applied])) := by
  refine ⟨?_, ?_, ?_⟩
  · cases b <;> rfl
  · cases b <;> rfl
  · intro applied h; cases b <;> simp [apply_pipe, get_fn_closure_call, call_method_expr, h]

/-- Witness for C9: a Map step at counter 7 still binds __map_var. -/
theorem C9_witness :
    (apply_pipe PipeType.Map (Expr.litInt 1) 7 PipeOp.noOp).2 =
      Except.ok (Expr.methodCall (Expr.litInt 1) "map"
        [Expr.closureE ["__map_var"] (Expr.path false ["__map_var"])]) :=
  (C9_map_var_fixed PipeOp.noOp (Expr.litInt 1) 7 0 false).2.2 _ rfl

/-- C10: applying a Call operation always succeeds, for every callee
expression (in particular a qualified multi-segment path) and every
accumulated expression; and the parser accepts a qualified, multi-segment
call target such as std::mem::drop. -/
theorem C10_call_total :
    (∀ (func acc : Expr) (args : List Expr),
        apply_op (PipeOp.fnCall func args) acc =
          Except.ok (call_expr func (substitute_args args acc replace_empty_paren_closure))) ∧
    PipeOp.parse 9 [Tok.ident "std", Tok.colonColon, Tok.ident "mem",
        Tok.colonColon, Tok.ident "drop"] =
      Except.ok (PipeOp.fnCall (Expr.path false ["std", "mem", "drop"]) [], []) :=
  ⟨fun _ _ _ => rfl, rfl⟩

end Spipe
